import Mathlib

/-!
Verification of the options-publisher repository: a web form that composes
trade-alert messages and dispatches them to a messaging webhook.

The development shallowly embeds the message-composition engine of
`app/telegram/page.js` and the dispatch gate of `app/api/sendMessage/route.js`:
JavaScript strings become `String`, JavaScript numbers (used here only for
prices, which the form constrains to decimal literals) become `ℚ`, dates become
day counts since the JavaScript epoch (1970-01-01), and fallible paths return
`Option`.
-/

/-! ## JavaScript primitives: number-to-string rendering -/

/-- Decimal rendering of a natural number, accumulator style; the first
argument is fuel (always called with enough, since a number `n` has at most
`n + 1` decimal digits).  Models the JavaScript `String(n)` conversion for
non-negative integers. -/
def natStrGo : Nat → Nat → List Char → List Char
  | 0, _, acc => acc
  | fuel + 1, n, acc =>
    if n < 10 then Char.ofNat (48 + n % 10) :: acc
    else natStrGo fuel (n / 10) (Char.ofNat (48 + n % 10) :: acc)

/-- Decimal rendering of a natural number; models JavaScript `String(n)`. -/
def natStr (n : Nat) : String := String.mk (natStrGo (n + 1) n [])

/-- Decimal rendering of an integer; models JavaScript `String(i)`. -/
def intStr (i : Int) : String :=
  if i < 0 then "-" ++ natStr i.natAbs else natStr i.natAbs

/-- Two-digit zero-padded rendering; models the `day: "2-digit"` field of
`toLocaleDateString` (and the two fractional digits of `toFixed(2)`). -/
def pad2 (n : Nat) : String :=
  if n < 10 then "0" ++ natStr n else natStr n

theorem digit_char_isDigit : ∀ r < 10, (Char.ofNat (48 + r)).isDigit = true := by
  decide

theorem natStrGo_digits (fuel : Nat) : ∀ (n : Nat) (acc : List Char),
    (∀ c ∈ acc, c.isDigit = true) → ∀ c ∈ natStrGo fuel n acc, c.isDigit = true := by
  induction fuel with
  | zero => intro n acc h c hc; exact h c hc
  | succ f ih =>
    intro n acc h c hc
    simp only [natStrGo] at hc
    have hd : (Char.ofNat (48 + n % 10)).isDigit = true :=
      digit_char_isDigit (n % 10) (Nat.mod_lt _ (by norm_num))
    by_cases hn : n < 10
    · simp only [if_pos hn] at hc
      rcases List.mem_cons.mp hc with h1 | h2
      · exact h1 ▸ hd
      · exact h c h2
    · simp only [if_neg hn] at hc
      refine ih (n / 10) _ ?_ c hc
      intro x hx
      rcases List.mem_cons.mp hx with h1 | h2
      · exact h1 ▸ hd
      · exact h x h2

theorem natStr_digits (n : Nat) : ∀ c ∈ (natStr n).data, c.isDigit = true := by
  intro c hc
  exact natStrGo_digits (n + 1) n [] (by intro c hc; cases hc) c hc

theorem natStr_noDot (n : Nat) : '.' ∉ (natStr n).data := by
  intro h
  have := natStr_digits n '.' h
  simp at this

theorem pad2_noDot (n : Nat) : '.' ∉ (pad2 n).data := by
  unfold pad2
  by_cases h : n < 10
  · simp only [if_pos h]
    intro hm
    have hdata : (("0" : String) ++ natStr n).data = '0' :: (natStr n).data := by
      cases hn : natStr n
      simp [String.append, hn, String.data]
    rw [hdata] at hm
    rcases List.mem_cons.mp hm with h1 | h2
    · exact absurd h1 (by decide)
    · exact natStr_noDot n h2
  · simp only [if_neg h]
    exact natStr_noDot n

/-! ## JavaScript primitives: stripping the first "." (`s.replace(".", "")`) -/

/-- Removes the first occurrence of the character `.`; models the JavaScript
`s.replace(".", "")` call (string-pattern `replace` rewrites only the first
occurrence). -/
def removeFirstDot : List Char → List Char
  | [] => []
  | c :: rest => if c = '.' then rest else c :: removeFirstDot rest

/-- String-level wrapper of `removeFirstDot`. -/
def jsStripDot (s : String) : String := String.mk (removeFirstDot s.data)

theorem removeFirstDot_of_noDot : ∀ (l : List Char), '.' ∉ l → removeFirstDot l = l := by
  intro l
  induction l with
  | nil => intro _; rfl
  | cons c rest ih =>
    intro h
    have hc : ¬ c = '.' := by
      intro he; exact h (he ▸ List.mem_cons_self c rest)
    simp only [removeFirstDot, if_neg hc]
    rw [ih (fun hm => h (List.mem_cons_of_mem c hm))]

theorem jsStripDot_of_noDot (s : String) (h : '.' ∉ s.data) : jsStripDot s = s := by
  unfold jsStripDot
  rw [removeFirstDot_of_noDot s.data h]

theorem data_append (s t : String) : (s ++ t).data = s.data ++ t.data := by
  cases s; cases t; rfl

/-! ## ExpiryCalculator -/

/-- Day of week for a day count since the JavaScript epoch 1970-01-01 (which
was a Thursday, day-of-week 4); models `Date.prototype.getDay`, with the
JavaScript convention 0 = Sunday, …, 2 = Tuesday, …, 6 = Saturday. -/
def jsGetDay (n : Nat) : Nat := (n + 4) % 7

/-- The source line `const daysUntilTue = (2 - day + 7) % 7 || 7`: number of
days from a date with day-of-week `day` (in 0..6) to the next strictly-future
Tuesday.  `‖ 7` turns the falsy value 0 into 7. -/
def daysUntilTue (day : Nat) : Nat :=
  if (2 + 7 - day) % 7 = 0 then 7 else (2 + 7 - day) % 7

/-- The day count of the expiry computed by the component effect:
`nextTuesday.setDate(today.getDate() + daysUntilTue)`. -/
def nextExpiryDayNum (n : Nat) : Nat := n + daysUntilTue (jsGetDay n)

/-- Civil calendar from a day count since 1970-01-01, returning
(year, month 1..12, day-of-month 1..31); standard era-based conversion,
modelling the date components that `toLocaleDateString` renders. -/
def civilFromDays (z : Nat) : Nat × Nat × Nat :=
  let z2 := z + 719468
  let era := z2 / 146097
  let doe := z2 % 146097
  let yoe := (doe - doe / 1460 + doe / 36524 - doe / 146096) / 365
  let y := yoe + era * 400
  let doy := doe - (365 * yoe + yoe / 4 - yoe / 100)
  let mp := (5 * doy + 2) / 153
  let d := doy - (153 * mp + 2) / 5 + 1
  let m := if mp < 10 then mp + 3 else mp - 9
  (if m ≤ 2 then y + 1 else y, m, d)

/-- Abbreviated month names of the `en-GB` locale as used by
`toLocaleDateString(.., { month: "short" })` (September abbreviates to
"Sept" in that locale); month is 1-based, out-of-range yields `""`. -/
def monthShortEnGB (m : Nat) : String :=
  List.getD ["Jan", "Feb", "Mar", "Apr", "May", "Jun", "Jul", "Aug", "Sept",
    "Oct", "Nov", "Dec"] (m - 1) ""

/-- Models `date.toLocaleDateString("en-GB", { day: "2-digit", month: "short" })`
on the date `n` days after 1970-01-01. -/
def formatShortDate (n : Nat) : String :=
  pad2 (civilFromDays n).2.2 ++ " " ++ monthShortEnGB (civilFromDays n).2.1

/-- The expiry label the component stores: format the next Tuesday then
`.replace(".", "")`. -/
def expiryLabel (n : Nat) : String :=
  jsStripDot (formatShortDate (nextExpiryDayNum n))

theorem getD_prop {α : Type} (P : α → Prop) :
    ∀ (l : List α) (n : Nat) (d : α), (∀ s ∈ l, P s) → P d → P (l.getD n d) := by
  intro l
  induction l with
  | nil => intro n d _ hd; cases n <;> exact hd
  | cons a t ih =>
    intro n d hl hd
    cases n with
    | zero => simpa using hl a (List.mem_cons_self a t)
    | succ m =>
      simp only [List.getD_cons_succ]
      exact ih m d (fun s hs => hl s (List.mem_cons_of_mem a hs)) hd

theorem monthShortEnGB_noDot (m : Nat) : '.' ∉ (monthShortEnGB m).data := by
  unfold monthShortEnGB
  refine getD_prop (fun s => '.' ∉ s.data) _ (m - 1) "" ?_ (by simp [String.data])
  intro s hs
  fin_cases hs <;> decide

theorem formatShortDate_noDot (n : Nat) : '.' ∉ (formatShortDate n).data := by
  unfold formatShortDate
  rw [data_append, data_append]
  intro h
  rcases List.mem_append.mp h with h1 | h2
  · rcases List.mem_append.mp h1 with h3 | h4
    · exact pad2_noDot _ h3
    · exact absurd h4 (by decide)
  · exact monthShortEnGB_noDot _ h2

/-- Claim C2: the computed expiry always falls on a Tuesday, lies strictly
after the input date by 1 to 7 days, is exactly 7 days later precisely when
the input date is itself a Tuesday, and the stored label renders it as the
2-digit day-of-month, a space, and the abbreviated month name (the
`.replace(".", "")` strip leaves exactly that, since no `.` occurs). -/
theorem expiryCalculator_nextTuesday (n : Nat) :
    jsGetDay (nextExpiryDayNum n) = 2 ∧
    n < nextExpiryDayNum n ∧
    nextExpiryDayNum n ≤ n + 7 ∧
    (jsGetDay n = 2 ↔ nextExpiryDayNum n = n + 7) ∧
    expiryLabel n =
      pad2 (civilFromDays (nextExpiryDayNum n)).2.2 ++ " " ++
        monthShortEnGB (civilFromDays (nextExpiryDayNum n)).2.1 := by
  refine ⟨?_, ?_, ?_, ?_, ?_⟩
  · unfold nextExpiryDayNum daysUntilTue jsGetDay
    split <;> omega
  · unfold nextExpiryDayNum daysUntilTue jsGetDay
    split <;> omega
  · unfold nextExpiryDayNum daysUntilTue jsGetDay
    split <;> omega
  · unfold nextExpiryDayNum daysUntilTue jsGetDay
    split <;> omega
  · unfold expiryLabel
    exact jsStripDot_of_noDot _ (formatShortDate_noDot _)

/-! ## The dispatch handler: POST /api/sendMessage (route.js) -/

/-- Splits a character list at every comma; models the JavaScript
`env.split(",")` (so the empty string yields `[""]`). -/
def splitCommaGo : List Char → List Char → List String
  | [], cur => [String.mk cur.reverse]
  | c :: rest, cur =>
    if c = ',' then String.mk cur.reverse :: splitCommaGo rest []
    else splitCommaGo rest (c :: cur)

/-- String-level wrapper of `splitCommaGo`; models `s.split(",")`. -/
def jsSplitComma (s : String) : List String := splitCommaGo s.data []

/-- Whitespace in the sense of JavaScript `String.prototype.trim`
(restricted to the ASCII whitespace that can occur in an env value). -/
def isJsSpace (c : Char) : Bool := c = ' ' || c = '\t' || c = '\n' || c = '\r'

/-- Models JavaScript `s.trim()`. -/
def jsTrim (s : String) : String :=
  String.mk (((s.data.dropWhile isJsSpace).reverse.dropWhile isJsSpace).reverse)

/-- The server session as the route reads it: `session.user?.email` collapsed
into one optional field (`none` covers a missing session user and a missing
email alike). -/
structure Session where
  userEmail : Option String

/-- The whitelist the route computes:
`process.env.AUTHORIZED_USERS?.split(",").map((e) => e.trim()) || []`;
an absent env value gives the empty list. -/
def parseAuthorized : Option String → List String
  | none => []
  | some env => (jsSplitComma env).map jsTrim

/-- Outcome of the POST handler, up to the point where a message is forwarded
to the messaging webhook: either an error response with a status code, or a
forward of the message text (`forward` marks that the webhook fetch is
issued). -/
inductive RouteResult where
  | err : String → Nat → RouteResult
  | forward : String → RouteResult
deriving DecidableEq

/-- The POST handler of `app/api/sendMessage/route.js`, embedded over the
session (`none` = no session), the `AUTHORIZED_USERS` env value (`none` =
absent) and the request body's `message` field (`none` = missing; the
JavaScript truthiness test `!message` also rejects the empty string). -/
def POST (session : Option Session) (env : Option String) (message : Option String) :
    RouteResult :=
  match session with
  | none => RouteResult.err "Unauthorized - not logged in" 401
  | some s =>
    match s.userEmail with
    | none => RouteResult.err "Unauthorized - not logged in" 401
    | some email =>
      if email = "" then RouteResult.err "Unauthorized - not logged in" 401
      else if email ∈ parseAuthorized env then
        match message with
        | none => RouteResult.err "Message cannot be empty" 400
        | some m =>
          if m = "" then RouteResult.err "Message cannot be empty" 400
          else RouteResult.forward m
      else RouteResult.err "Access denied" 403

/-- The authenticated principal's email: `some e` exactly when there is a
session whose user has a non-falsy email. -/
def sessionEmail : Option Session → Option String
  | none => none
  | some s =>
    match s.userEmail with
    | none => none
    | some e => if e = "" then none else some e

theorem POST_eq_gate (session : Option Session) (env body : Option String) :
    POST session env body =
      match sessionEmail session with
      | none => RouteResult.err "Unauthorized - not logged in" 401
      | some e =>
        if e ∈ parseAuthorized env then
          match body with
          | none => RouteResult.err "Message cannot be empty" 400
          | some m =>
            if m = "" then RouteResult.err "Message cannot be empty" 400
            else RouteResult.forward m
        else RouteResult.err "Access denied" 403 := by
  cases session with
  | none => rfl
  | some s =>
    cases hs : s.userEmail with
    | none => simp [POST, sessionEmail, hs]
    | some e =>
      by_cases he : e = "" <;> simp [POST, sessionEmail, hs, he]

/-- Claim C1: the handler gates every request in order — no/empty-email
session gives status 401; an authenticated but non-whitelisted email gives
status 403; a missing or empty message field gives status 400; only when all
three checks pass is the message forwarded — and any forwarded message comes
from a whitelisted principal. -/
theorem sendMessage_authorization_gate (session : Option Session) (env body : Option String) :
    (sessionEmail session = none →
      POST session env body = RouteResult.err "Unauthorized - not logged in" 401) ∧
    (∀ e, sessionEmail session = some e → e ∉ parseAuthorized env →
      POST session env body = RouteResult.err "Access denied" 403) ∧
    (∀ e, sessionEmail session = some e → e ∈ parseAuthorized env →
      (body = none ∨ body = some "") →
      POST session env body = RouteResult.err "Message cannot be empty" 400) ∧
    (∀ e m, sessionEmail session = some e → e ∈ parseAuthorized env →
      body = some m → m ≠ "" →
      POST session env body = RouteResult.forward m) ∧
    (∀ m, POST session env body = RouteResult.forward m →
      ∃ e, sessionEmail session = some e ∧ e ∈ parseAuthorized env ∧ body = some m) := by
  rw [POST_eq_gate]
  refine ⟨?_, ?_, ?_, ?_, ?_⟩
  · intro h; rw [h]
  · intro e he hmem; rw [he]; simp [hmem]
  · intro e he hmem hb
    rcases hb with hb | hb <;> rw [he, hb] <;> simp [hmem]
  · intro e m he hmem hb hm
    rw [he, hb]; simp [hmem, hm]
  · intro m hm
    cases hse : sessionEmail session with
    | none => simp [hse] at hm
    | some e =>
      simp only [hse] at hm
      by_cases hmem : e ∈ parseAuthorized env
      · rw [if_pos hmem] at hm
        cases hb : body with
        | none => simp [hb] at hm
        | some m2 =>
          simp only [hb] at hm
          by_cases h2 : m2 = ""
          · simp [h2] at hm
          · rw [if_neg h2] at hm
            cases hm
            exact ⟨e, rfl, hmem, rfl⟩
      · rw [if_neg hmem] at hm
        simp at hm

/-- Witness for C1: a whitelisted principal's message is forwarded, and the
handler itself certifies that the forwarding principal is on the whitelist. -/
theorem sendMessage_authorization_gate_check :
    POST (some ⟨some "trader@example.com"⟩) (some "trader@example.com, ops@example.com")
        (some "hello") = RouteResult.forward "hello" ∧
    ∃ e, sessionEmail (some ⟨some "trader@example.com"⟩) = some e ∧
      e ∈ parseAuthorized (some "trader@example.com, ops@example.com") := by
  have h := sendMessage_authorization_gate (some ⟨some "trader@example.com"⟩)
    (some "trader@example.com, ops@example.com") (some "hello")
  have h1 := h.2.2.2.1 "trader@example.com" "hello" (by decide) (by decide) rfl (by decide)
  refine ⟨h1, ?_⟩
  rcases h.2.2.2.2 "hello" h1 with ⟨e, he, hmem, _⟩
  exact ⟨e, he, hmem⟩

/-- Claim C9: with `AUTHORIZED_USERS` absent the whitelist evaluates to the
empty list, so every authenticated request is answered with the 403
"Access denied" error — the gate fails closed under missing configuration. -/
theorem missing_whitelist_fails_closed :
    parseAuthorized none = [] ∧
    ∀ (session : Option Session) (body : Option String) (e : String),
      sessionEmail session = some e →
      POST session none body = RouteResult.err "Access denied" 403 := by
  refine ⟨rfl, ?_⟩
  intro session body e he
  rw [POST_eq_gate, he]
  simp [parseAuthorized]

/-- Witness for C9: a concrete authenticated request against an absent
whitelist is denied with status 403. -/
theorem missing_whitelist_fails_closed_check :
    POST (some ⟨some "trader@example.com"⟩) none (some "hello") =
      RouteResult.err "Access denied" 403 :=
  missing_whitelist_fails_closed.2 (some ⟨some "trader@example.com"⟩) (some "hello")
    "trader@example.com" rfl

/-! ## JavaScript number coercion and rendering (prices as `ℚ`)

The form's price fields are `<input type="number">`, so their values are
decimal floating-point literals or the empty string; prices are modelled as
rationals.  `jsStrToNum` models `Number(val)` composed with the `isFinite`
test: `none` stands for NaN / ±Infinity, and covers every string outside the
sign–digits–fraction–exponent grammar (hex and binary literals, which a
number input cannot produce, are outside the model). -/

/-- Value of a list of decimal digit characters. -/
def digitsToNat (l : List Char) : Nat :=
  l.foldl (fun a c => a * 10 + (c.toNat - 48)) 0

/-- All characters are decimal digits. -/
def allDigits (l : List Char) : Bool := l.all Char.isDigit

/-- Splits at the first character satisfying `p`; the second component is
`none` when no such character occurs. -/
def splitAtChar (p : Char → Bool) : List Char → List Char × Option (List Char)
  | [] => ([], none)
  | c :: rest =>
    if p c then ([], some rest)
    else
      let (a, b) := splitAtChar p rest
      (c :: a, b)

/-- Parses `digits [. digits]` (at least one digit overall, as JavaScript
requires: `"12."`, `".5"` parse, `"."` does not). -/
def parseMantissa (l : List Char) : Option ℚ :=
  let (ip, fpOpt) := splitAtChar (fun c => c = '.') l
  match fpOpt with
  | none => if ip ≠ [] ∧ allDigits ip then some (digitsToNat ip : ℚ) else none
  | some fp =>
    if allDigits ip ∧ allDigits fp ∧ (ip ≠ [] ∨ fp ≠ []) then
      some ((digitsToNat ip : ℚ) + (digitsToNat fp : ℚ) / (10 : ℚ) ^ fp.length)
    else none

/-- Parses the exponent part after `e`/`E`: optional sign, then digits. -/
def parseExponent (l : List Char) : Option Int :=
  match l with
  | [] => none
  | '+' :: rest => if rest ≠ [] ∧ allDigits rest then some (digitsToNat rest : Int) else none
  | '-' :: rest => if rest ≠ [] ∧ allDigits rest then some (-(digitsToNat rest : Int)) else none
  | _ => if allDigits l then some (digitsToNat l : Int) else none

/-- Parses an unsigned decimal literal with optional exponent. -/
def parseUnsigned (l : List Char) : Option ℚ :=
  let (mant, expOpt) := splitAtChar (fun c => c = 'e' || c = 'E') l
  match expOpt with
  | none => parseMantissa mant
  | some ex =>
    match parseMantissa mant, parseExponent ex with
    | some m, some e => some (m * (10 : ℚ) ^ e)
    | _, _ => none

/-- Models `Number(s)` followed by the `isFinite` test: trims, maps the empty
string to 0 (a JavaScript quirk central to claim C4), parses an optionally
signed decimal literal, and returns `none` for anything else. -/
def jsStrToNum (s : String) : Option ℚ :=
  match (jsTrim s).data with
  | [] => some 0
  | '+' :: rest => parseUnsigned rest
  | '-' :: rest => (parseUnsigned rest).map (fun q => -q)
  | l => parseUnsigned l

/-- Models `n.toFixed(2)`: sign, integer part, `"."`, two fractional digits
(rounding to the nearest hundredth, half away from zero). -/
def toFixed2 (q : ℚ) : String :=
  let sign := if q < 0 then "-" else ""
  let m := (⌊|q| * 100 + 1 / 2⌋).toNat
  sign ++ natStr (m / 100) ++ "." ++ pad2 (m % 100)

/-- The per-side renderer of `getRangeText`:
`(n) => (Number.isInteger(n) ? String(n) : n.toFixed(2))`; a rational is a
JavaScript integer exactly when its reduced denominator is 1. -/
def fmtJs (q : ℚ) : String :=
  if q.den = 1 then intStr q.num else toFixed2 q

/-- `getRangeText` from `FreshTradeSection`: coerce the field to a number,
return `null` if not finite, else render `"<low> - <high>"` with
`high = low + 5`. -/
def getRangeText (val : String) : Option String :=
  match jsStrToNum val with
  | none => none
  | some low => some (fmtJs low ++ " - " ++ fmtJs (low + 5))

/-- A string of the shape `…".".d₁d₂` — some prefix without a dot, then a dot,
then exactly two digits: the "fixed to two decimals" rendering. -/
def twoDecShape (s : String) : Prop :=
  ∃ t a b, s.data = t ++ ['.', a, b] ∧ a.isDigit = true ∧ b.isDigit = true ∧ '.' ∉ t

theorem intStr_noDot (i : Int) : '.' ∉ (intStr i).data := by
  unfold intStr
  by_cases h : i < 0
  · simp only [if_pos h]
    rw [data_append]
    intro hm
    rcases List.mem_append.mp hm with h1 | h2
    · exact absurd h1 (by decide)
    · exact natStr_noDot _ h2
  · simp only [if_neg h]
    exact natStr_noDot _

theorem pad2_digits (n : Nat) : ∀ c ∈ (pad2 n).data, c.isDigit = true := by
  intro c hc
  unfold pad2 at hc
  by_cases h : n < 10
  · simp only [if_pos h] at hc
    rw [data_append] at hc
    rcases List.mem_append.mp hc with h1 | h2
    · have : c = '0' := by simpa using h1
      rw [this]; decide
    · exact natStr_digits n c h2
  · simp only [if_neg h] at hc
    exact natStr_digits n c hc

theorem pad2_len2 : ∀ f, f < 100 → (pad2 f).data.length = 2 := by decide

theorem pad2_shape (f : Nat) (hf : f < 100) :
    ∃ a b, (pad2 f).data = [a, b] ∧ a.isDigit = true ∧ b.isDigit = true := by
  have hlen := pad2_len2 f hf
  match hd : (pad2 f).data with
  | [a, b] =>
    exact ⟨a, b, rfl, pad2_digits f a (by rw [hd]; simp),
      pad2_digits f b (by rw [hd]; simp)⟩
  | [] => rw [hd] at hlen; simp at hlen
  | [_] => rw [hd] at hlen; simp at hlen
  | _ :: _ :: _ :: _ => rw [hd] at hlen; simp at hlen

theorem toFixed2_shape (q : ℚ) : twoDecShape (toFixed2 q) := by
  unfold toFixed2
  have hlt : (⌊|q| * 100 + 1 / 2⌋).toNat % 100 < 100 := Nat.mod_lt _ (by norm_num)
  rcases pad2_shape _ hlt with ⟨a, b, hab, ha, hb⟩
  refine ⟨(if q < 0 then "-" else "").data ++ (natStr ((⌊|q| * 100 + 1 / 2⌋).toNat / 100)).data,
    a, b, ?_, ha, hb, ?_⟩
  · rw [data_append, data_append, data_append, hab]
    have hdot : ("." : String).data = ['.'] := rfl
    rw [hdot]
    simp [List.append_assoc]
  · intro hm
    rcases List.mem_append.mp hm with h1 | h2
    · by_cases h : q < 0
      · rw [if_pos h] at h1; exact absurd h1 (by decide)
      · rw [if_neg h] at h1; exact absurd h1 (by decide)
    · exact natStr_noDot _ h2

theorem fmtJs_int (q : ℚ) (h : q.den = 1) :
    fmtJs q = intStr q.num ∧ '.' ∉ (fmtJs q).data := by
  unfold fmtJs
  rw [if_pos h]
  exact ⟨rfl, intStr_noDot _⟩

theorem fmtJs_frac (q : ℚ) (h : q.den ≠ 1) : twoDecShape (fmtJs q) := by
  unfold fmtJs
  rw [if_neg h]
  exact toFixed2_shape q

/-- Claim C3: whenever the input coerces to a finite number `p`, the
RangeFormatter returns `"<low> - <high>"` with `high = p + 5`; each side is an
integer literal (no decimal point) when that side has no fractional part, and
otherwise is fixed to exactly two decimals (a dot followed by exactly two
digits at the end). -/
theorem getRangeText_formats (s : String) (p : ℚ) (h : jsStrToNum s = some p) :
    getRangeText s = some (fmtJs p ++ " - " ++ fmtJs (p + 5)) ∧
    (p.den = 1 → fmtJs p = intStr p.num ∧ '.' ∉ (fmtJs p).data) ∧
    ((p + 5).den = 1 → fmtJs (p + 5) = intStr (p + 5).num ∧ '.' ∉ (fmtJs (p + 5)).data) ∧
    (p.den ≠ 1 → twoDecShape (fmtJs p)) ∧
    ((p + 5).den ≠ 1 → twoDecShape (fmtJs (p + 5))) := by
  refine ⟨?_, fmtJs_int p, fmtJs_int (p + 5), fmtJs_frac p, fmtJs_frac (p + 5)⟩
  unfold getRangeText
  rw [h]

theorem fmtJs_natCast (n : ℕ) : fmtJs (n : ℚ) = natStr n := by
  unfold fmtJs
  rw [if_pos (Rat.den_natCast n)]
  unfold intStr
  rw [Rat.num_natCast]
  rw [if_neg (by exact not_lt.mpr (Int.natCast_nonneg n))]
  rw [Int.natAbs_ofNat]

theorem jsStrToNum_160 : jsStrToNum "160" = some ((160 : ℕ) : ℚ) := rfl

theorem getRangeText_160 : getRangeText "160" = some "160 - 165" := by
  have h5 : ((160 : ℕ) : ℚ) + 5 = ((165 : ℕ) : ℚ) := by push_cast; norm_num
  simp only [getRangeText, jsStrToNum_160, h5, fmtJs_natCast]
  rfl

/-- Witness for C3: `"160"` coerces to the whole number 160; the formatter
returns `"160 - 165"`, both sides rendered as integer literals with no
decimal point. -/
theorem getRangeText_formats_check :
    getRangeText "160" = some "160 - 165" ∧
    fmtJs ((160 : ℕ) : ℚ) = intStr (((160 : ℕ) : ℚ)).num ∧
    '.' ∉ (fmtJs ((160 : ℕ) : ℚ)).data := by
  have h := getRangeText_formats "160" ((160 : ℕ) : ℚ) jsStrToNum_160
  rcases h.2.1 (Rat.den_natCast 160) with ⟨hint, hdot⟩
  exact ⟨getRangeText_160, hint, hdot⟩

/-! ## FreshTradeSection: state, composition, and the BOTH-legs effect -/

/-- Option side `CE` (call) or `PE` (put). -/
inductive OptSide where
  | CE
  | PE
deriving DecidableEq

/-- Rendering of an option side, as interpolated into messages. -/
def OptSide.str : OptSide → String
  | .CE => "CE"
  | .PE => "PE"

/-- The `action` radio group: `"BUY" | "SELL" | "BOTH"`. -/
inductive TradeAction where
  | BUY
  | SELL
  | BOTH
deriving DecidableEq

/-- The market-direction radio group: `"BULLISH" | "BEARISH"`. -/
inductive Direction where
  | BULLISH
  | BEARISH
deriving DecidableEq

/-- The `useState` fields of `FreshTradeSection` that feed
`buildPreviewMessage`. -/
structure FreshState where
  action : TradeAction
  strike : Nat
  optionType : OptSide
  marketDirection : Direction
  buyOptionType : OptSide
  sellOptionType : OptSide
  buyPrice : String
  sellPrice : String
  expiry : String
  buyStopLoss : String
  sellStopLoss : String

/-- The single-leg main message:
`FRESH TRADE\n\n"<verb>" <expiry> "Nifty <strike> <side>" between <range>`. -/
def singleMainMsg (verb : String) (strike : Nat) (expiry : String) (side : OptSide)
    (range : String) : String :=
  "FRESH TRADE\n\n\"" ++ verb ++ "\" " ++ expiry ++ " \"Nifty " ++ natStr strike ++ " " ++
    side.str ++ "\" between " ++ range

/-- The single-leg stop-loss clause: empty when the field is empty (falsy),
otherwise `\n\nStop loss for <strike> <side> is <stopLoss>` with the field
interpolated verbatim. -/
def slMsg (strike : Nat) (side : OptSide) (sl : String) : String :=
  if sl = "" then ""
  else "\n\nStop loss for " ++ natStr strike ++ " " ++ side.str ++ " is " ++ sl

/-- The BOTH main message: two joined legs with `AND` between them. -/
def bothMainMsg (strike : Nat) (expiry : String) (buySide sellSide : OptSide)
    (buyRange sellRange : String) : String :=
  "FRESH TRADE\n\n" ++
    "\"BUY\" " ++ expiry ++ " \"Nifty " ++ natStr strike ++ " " ++ buySide.str ++
      "\" between " ++ buyRange ++ "\n" ++
    "AND\n" ++
    "\"SELL\" " ++ expiry ++ " \"Nifty " ++ natStr strike ++ " " ++ sellSide.str ++
      "\" between " ++ sellRange

/-- The BOTH stop-loss clause: combined when both stop-losses are present,
single-sided when exactly one is, empty when neither is. -/
def bothSlMsg (strike : Nat) (buySide sellSide : OptSide) (buySL sellSL : String) : String :=
  if buySL ≠ "" ∧ sellSL ≠ "" then
    "\n\nStop loss for " ++ natStr strike ++ " " ++ buySide.str ++ " is " ++ buySL ++
      " and " ++ natStr strike ++ " " ++ sellSide.str ++ " is " ++ sellSL
  else if buySL ≠ "" ∨ sellSL ≠ "" then
    "\n\nStop loss for " ++ natStr strike ++ " " ++
      (if buySL ≠ "" then buySide.str ++ " is " ++ buySL
       else sellSide.str ++ " is " ++ sellSL)
  else ""

/-- `buildPreviewMessage` of `FreshTradeSection`: `none` models the
`toast.error(...), null` validation-failure returns. -/
def buildPreviewMessage (s : FreshState) : Option String :=
  match s.action with
  | .BUY =>
    match getRangeText s.buyPrice with
    | none => none
    | some range =>
      some (singleMainMsg "BUY" s.strike s.expiry s.optionType range ++
        slMsg s.strike s.optionType s.buyStopLoss)
  | .SELL =>
    match getRangeText s.sellPrice with
    | none => none
    | some range =>
      some (singleMainMsg "SELL" s.strike s.expiry s.optionType range ++
        slMsg s.strike s.optionType s.sellStopLoss)
  | .BOTH =>
    match getRangeText s.buyPrice, getRangeText s.sellPrice with
    | some buyRange, some sellRange =>
      some (bothMainMsg s.strike s.expiry s.buyOptionType s.sellOptionType buyRange sellRange ++
        bothSlMsg s.strike s.buyOptionType s.sellOptionType s.buyStopLoss s.sellStopLoss)
    | _, _ => none

/-- User events the rendered `FreshTradeSection` UI can produce.  The
buy/sell option types have no direct setter event: while `action = BOTH` the
side radios are not rendered (the single-leg radios set `optionType`), so the
legs are written only by the direction effect and by reset. -/
inductive FreshEvent where
  | setAction : TradeAction → FreshEvent
  | setDirection : Direction → FreshEvent
  | setOptionType : OptSide → FreshEvent
  | setStrike : Nat → FreshEvent
  | setBuyPrice : String → FreshEvent
  | setSellPrice : String → FreshEvent
  | setBuyStopLoss : String → FreshEvent
  | setSellStopLoss : String → FreshEvent
  | reset : FreshEvent

/-- The `useEffect` over `[action, marketDirection]`: when `action = BOTH`,
overwrite the two legs with the pair determined by the direction. -/
def applyBothEffect (s : FreshState) : FreshState :=
  match s.action with
  | .BOTH =>
    match s.marketDirection with
    | .BULLISH => { s with buyOptionType := .CE, sellOptionType := .PE }
    | .BEARISH => { s with buyOptionType := .PE, sellOptionType := .CE }
  | _ => s

/-- Initial component state (the expiry label is computed once per mount). -/
def initFreshState (expiry : String) : FreshState :=
  ⟨.BUY, 24000, .CE, .BULLISH, .CE, .PE, "", "", expiry, "", ""⟩

/-- One user event followed by the effects it can re-fire: the
`[action, marketDirection]` effect runs again exactly after the events that
change its dependencies. -/
def freshStep (s : FreshState) : FreshEvent → FreshState
  | .setAction a => applyBothEffect { s with action := a }
  | .setDirection d => applyBothEffect { s with marketDirection := d }
  | .setOptionType t => { s with optionType := t }
  | .setStrike k => { s with strike := k }
  | .setBuyPrice v => { s with buyPrice := v }
  | .setSellPrice v => { s with sellPrice := v }
  | .setBuyStopLoss v => { s with buyStopLoss := v }
  | .setSellStopLoss v => { s with sellStopLoss := v }
  | .reset => applyBothEffect (initFreshState s.expiry)

/-- State after a sequence of user events from a fresh mount. -/
def runFresh (expiry : String) (evs : List FreshEvent) : FreshState :=
  evs.foldl freshStep (initFreshState expiry)

/-- A state the component can actually be in. -/
def ReachableFresh (s : FreshState) : Prop :=
  ∃ expiry evs, s = runFresh expiry evs

/-- The buy-leg side determined by the market direction. -/
def dirBuySide : Direction → OptSide
  | .BULLISH => .CE
  | .BEARISH => .PE

/-- The sell-leg side determined by the market direction. -/
def dirSellSide : Direction → OptSide
  | .BULLISH => .PE
  | .BEARISH => .CE

/-- The BOTH-legs invariant. -/
def legsInv (s : FreshState) : Prop :=
  s.action = .BOTH →
    s.buyOptionType = dirBuySide s.marketDirection ∧
    s.sellOptionType = dirSellSide s.marketDirection

theorem legsInv_effect (s : FreshState) : legsInv (applyBothEffect s) := by
  unfold applyBothEffect legsInv
  cases ha : s.action <;> cases hd : s.marketDirection <;> simp [ha, hd, dirBuySide, dirSellSide]

theorem legsInv_step (s : FreshState) (e : FreshEvent) (h : legsInv s) :
    legsInv (freshStep s e) := by
  cases e with
  | setAction a => exact legsInv_effect _
  | setDirection d => exact legsInv_effect _
  | reset => exact legsInv_effect _
  | setOptionType t => exact fun hb => h hb
  | setStrike k => exact fun hb => h hb
  | setBuyPrice v => exact fun hb => h hb
  | setSellPrice v => exact fun hb => h hb
  | setBuyStopLoss v => exact fun hb => h hb
  | setSellStopLoss v => exact fun hb => h hb

theorem legsInv_run (expiry : String) (evs : List FreshEvent) :
    legsInv (runFresh expiry evs) := by
  unfold runFresh
  have base : legsInv (initFreshState expiry) := by
    intro hb; cases hb
  generalize initFreshState expiry = s0 at base ⊢
  induction evs generalizing s0 with
  | nil => exact base
  | cons e rest ih => exact ih (freshStep s0 e) (legsInv_step s0 e base)

/-- Claim C5: in every reachable state with `action = BOTH`, the two legs are
the complementary pair determined by the market direction (Bullish →
buy = CE, sell = PE; Bearish → buy = PE, sell = CE), the legs are never
equal, and the composed message interpolates exactly those derived sides. -/
theorem freshBoth_legs_complementary (s : FreshState) (hr : ReachableFresh s)
    (hb : s.action = .BOTH) :
    s.buyOptionType = dirBuySide s.marketDirection ∧
    s.sellOptionType = dirSellSide s.marketDirection ∧
    s.buyOptionType ≠ s.sellOptionType ∧
    ∀ br sr, getRangeText s.buyPrice = some br → getRangeText s.sellPrice = some sr →
      buildPreviewMessage s =
        some (bothMainMsg s.strike s.expiry (dirBuySide s.marketDirection)
            (dirSellSide s.marketDirection) br sr ++
          bothSlMsg s.strike (dirBuySide s.marketDirection) (dirSellSide s.marketDirection)
            s.buyStopLoss s.sellStopLoss) := by
  rcases hr with ⟨expiry, evs, rfl⟩
  rcases legsInv_run expiry evs hb with ⟨h1, h2⟩
  refine ⟨h1, h2, ?_, ?_⟩
  · rw [h1, h2]
    cases (runFresh expiry evs).marketDirection <;> simp [dirBuySide, dirSellSide]
  · intro br sr hbr hsr
    simp only [buildPreviewMessage, hb, hbr, hsr]
    rw [h1, h2]

/-- Witness for C5: after selecting the BOTH trade type (direction at its
initial Bullish value), the legs are CE/PE and the composed message (prices
empty, hence bands "0 - 5") uses exactly those sides. -/
theorem freshBoth_legs_complementary_check :
    (runFresh "11 Nov" [FreshEvent.setAction TradeAction.BOTH]).buyOptionType = OptSide.CE ∧
    (runFresh "11 Nov" [FreshEvent.setAction TradeAction.BOTH]).sellOptionType = OptSide.PE ∧
    (runFresh "11 Nov" [FreshEvent.setAction TradeAction.BOTH]).buyOptionType ≠
      (runFresh "11 Nov" [FreshEvent.setAction TradeAction.BOTH]).sellOptionType := by
  have h := freshBoth_legs_complementary (runFresh "11 Nov" [FreshEvent.setAction TradeAction.BOTH])
    ⟨"11 Nov", [FreshEvent.setAction TradeAction.BOTH], rfl⟩ rfl
  exact ⟨h.1, h.2.1, h.2.2.1⟩

/-! ## Empty and invalid price fields (claims C4, C6, C10) -/

theorem getRangeText_empty : getRangeText "" = some "0 - 5" := by
  have h0 : jsStrToNum "" = some (0 : ℚ) := rfl
  have step1 : getRangeText "" = some (fmtJs 0 ++ " - " ++ fmtJs (0 + 5)) := by
    simp only [getRangeText, h0]
  have h5 : (0 : ℚ) + 5 = ((5 : ℕ) : ℚ) := by norm_num
  have hc : (0 : ℚ) = ((0 : ℕ) : ℚ) := by norm_num
  rw [step1, h5, hc, fmtJs_natCast, fmtJs_natCast]
  rfl

theorem getRangeText_none_iff (val : String) :
    getRangeText val = none ↔ jsStrToNum val = none := by
  unfold getRangeText
  cases h : jsStrToNum val <;> simp

/-- Counterexample for C4: the empty price field is not rejected.  In the
initial state (action BUY, `buyPrice = ""`) the band is computed from the
empty string — `Number("")` is 0, which is finite — and composition succeeds
with the band `0 - 5` instead of surfacing a validation error. -/
theorem emptyPrice_not_rejected :
    getRangeText "" = some "0 - 5" ∧
    buildPreviewMessage (initFreshState "11 Nov") =
      some "FRESH TRADE\n\n\"BUY\" 11 Nov \"Nifty 24000 CE\" between 0 - 5" := by
  refine ⟨getRangeText_empty, ?_⟩
  simp only [buildPreviewMessage, initFreshState, getRangeText_empty]
  rfl

/-- Claim C4 as amended: for FreshBuy and FreshSell, composition fails with a
validation error exactly when the base-price field does not coerce to a
finite number; the empty string coerces to 0 (so an empty price is accepted
and yields the band `"0 - 5"`), while any non-coercible price yields
"no range" (`null`) and aborts composition. -/
theorem price_validation_amended (st : FreshState) :
    (st.action = .BUY → (buildPreviewMessage st = none ↔ jsStrToNum st.buyPrice = none)) ∧
    (st.action = .SELL → (buildPreviewMessage st = none ↔ jsStrToNum st.sellPrice = none)) ∧
    getRangeText "" = some "0 - 5" := by
  refine ⟨?_, ?_, getRangeText_empty⟩
  · intro h
    simp only [buildPreviewMessage, h]
    cases hr : getRangeText st.buyPrice with
    | none => simp [(getRangeText_none_iff st.buyPrice).mp hr]
    | some range =>
      have hns : jsStrToNum st.buyPrice ≠ none := by
        intro hn
        have h2 : getRangeText st.buyPrice = none := (getRangeText_none_iff _).mpr hn
        rw [h2] at hr; cases hr
      simp [hns]
  · intro h
    simp only [buildPreviewMessage, h]
    cases hr : getRangeText st.sellPrice with
    | none => simp [(getRangeText_none_iff st.sellPrice).mp hr]
    | some range =>
      have hns : jsStrToNum st.sellPrice ≠ none := by
        intro hn
        have h2 : getRangeText st.sellPrice = none := (getRangeText_none_iff _).mpr hn
        rw [h2] at hr; cases hr
      simp [hns]

/-- Witness for the amended C4: a non-numeric price aborts composition. -/
theorem price_validation_amended_check :
    buildPreviewMessage { initFreshState "11 Nov" with buyPrice := "abc" } = none := by
  have h := (price_validation_amended { initFreshState "11 Nov" with buyPrice := "abc" }).1 rfl
  exact h.mpr rfl

/-- Claim C6: the concrete FreshBuy scenario — strike 24000, side CE, buy
price "160", expiry "11 Nov", no stop-loss — composes exactly
`FRESH TRADE\n\n"BUY" 11 Nov "Nifty 24000 CE" between 160 - 165`, with
nothing appended. -/
theorem freshBuy_scenario :
    buildPreviewMessage { initFreshState "11 Nov" with buyPrice := "160" } =
      some "FRESH TRADE\n\n\"BUY\" 11 Nov \"Nifty 24000 CE\" between 160 - 165" := by
  simp only [buildPreviewMessage, initFreshState, getRangeText_160]
  rfl

/-- Claim C10: the stop-loss fields are never validated.  In each fresh-trade
branch the composed message appends, for every non-empty stop-loss string,
the `Stop loss for <strike> <side> is <stopLoss>` clause with the raw field
interpolated verbatim (no numeric parse is applied to it), and appends
nothing when the field is empty. -/
theorem stopLoss_unvalidated (st : FreshState) :
    (st.action = .BUY → ∀ range, getRangeText st.buyPrice = some range →
      buildPreviewMessage st =
        some (singleMainMsg "BUY" st.strike st.expiry st.optionType range ++
          (if st.buyStopLoss = "" then ""
           else "\n\nStop loss for " ++ natStr st.strike ++ " " ++ st.optionType.str ++
             " is " ++ st.buyStopLoss))) ∧
    (st.action = .SELL → ∀ range, getRangeText st.sellPrice = some range →
      buildPreviewMessage st =
        some (singleMainMsg "SELL" st.strike st.expiry st.optionType range ++
          (if st.sellStopLoss = "" then ""
           else "\n\nStop loss for " ++ natStr st.strike ++ " " ++ st.optionType.str ++
             " is " ++ st.sellStopLoss))) ∧
    (st.action = .BOTH → ∀ br sr, getRangeText st.buyPrice = some br →
      getRangeText st.sellPrice = some sr →
      buildPreviewMessage st =
        some (bothMainMsg st.strike st.expiry st.buyOptionType st.sellOptionType br sr ++
          (if st.buyStopLoss ≠ "" ∧ st.sellStopLoss ≠ "" then
            "\n\nStop loss for " ++ natStr st.strike ++ " " ++ st.buyOptionType.str ++
              " is " ++ st.buyStopLoss ++ " and " ++ natStr st.strike ++ " " ++
              st.sellOptionType.str ++ " is " ++ st.sellStopLoss
           else if st.buyStopLoss ≠ "" ∨ st.sellStopLoss ≠ "" then
            "\n\nStop loss for " ++ natStr st.strike ++ " " ++
              (if st.buyStopLoss ≠ "" then st.buyOptionType.str ++ " is " ++ st.buyStopLoss
               else st.sellOptionType.str ++ " is " ++ st.sellStopLoss)
           else ""))) := by
  refine ⟨?_, ?_, ?_⟩
  · intro h range hr
    simp only [buildPreviewMessage, h, hr]
    rfl
  · intro h range hr
    simp only [buildPreviewMessage, h, hr]
    rfl
  · intro h br sr hbr hsr
    simp only [buildPreviewMessage, h, hbr, hsr]
    rfl

/-- Witness for C10: the non-numeric stop-loss string "abc" is appended
verbatim to the composed message. -/
theorem stopLoss_unvalidated_check :
    buildPreviewMessage { initFreshState "11 Nov" with buyPrice := "160", buyStopLoss := "abc" } =
      some ("FRESH TRADE\n\n\"BUY\" 11 Nov \"Nifty 24000 CE\" between 160 - 165" ++
        "\n\nStop loss for 24000 CE is abc") := by
  have h :=
    (stopLoss_unvalidated
      { initFreshState "11 Nov" with buyPrice := "160", buyStopLoss := "abc" }).1
      rfl "160 - 165" getRangeText_160
  rw [h]
  rfl

/-! ## SquareOffSection -/

/-- The exit-mode radio group; `unset` is the initial `""` value, before the
user picks a mode. -/
inductive ExitMode where
  | unset
  | buy
  | sell
  | both
deriving DecidableEq

/-- The `squareOffTemplates` lookup object: the five fixed phrasings, keyed
by the action id; any other key yields `undefined`. -/
def squareOffTemplates (action : String) : Option String :=
  match action with
  | "book100" => some "Modify stop loss and book 100% profit."
  | "book50" => some "Modify stop loss and book 50% profit and now keep trailing stop loss at cost for remaining 50% qty."
  | "trailprofit" => some "Trailing stop loss triggered. Modify stop loss and book profit for remaining 50% quantity."
  | "trailclose" => some "Trailing stop loss triggered. Square off position."
  | "stoploss" => some "Stop loss triggered. Modify your stop loss and square off position."
  | _ => none

/-- `buildMessage` of `SquareOffSection`; `none` models the
`toast.error(...); return null` paths, and `some ""` the fall-through when no
exit mode is selected (the caller treats the empty string as falsy too). -/
def SquareOff.buildMessage (exitMode : ExitMode) (marketView : Direction) (strike : Nat)
    (ceExit peExit singleExit selectedOption action : String) : Option String :=
  match squareOffTemplates action with
  | none => none
  | some actionText =>
    match exitMode with
    | .unset => some ""
    | .buy =>
      if selectedOption = "" then none
      else if singleExit = "" then none
      else some ("SQUARE OFF\n" ++ actionText ++ " Sell " ++ natStr strike ++ " " ++
        selectedOption ++ " @ " ++ singleExit)
    | .sell =>
      if selectedOption = "" then none
      else if singleExit = "" then none
      else some ("SQUARE OFF\n" ++ actionText ++ " Buy " ++ natStr strike ++ " " ++
        selectedOption ++ " @ " ++ singleExit)
    | .both =>
      if ceExit = "" ∨ peExit = "" then none
      else
        match marketView with
        | .BULLISH => some ("SQUARE OFF\n" ++ actionText ++ " Sell " ++ natStr strike ++
            " CE @ " ++ ceExit ++ " and Buy " ++ natStr strike ++ " PE @ " ++ peExit)
        | .BEARISH => some ("SQUARE OFF\n" ++ actionText ++ " Sell " ++ natStr strike ++
            " PE @ " ++ peExit ++ " and Buy " ++ natStr strike ++ " CE @ " ++ ceExit)

/-- Claim C7: in the both-legs exit mode the close-out direction is fixed by
the market view — Bullish closes by selling the CE leg and buying back the PE
leg, Bearish by selling the PE leg and buying back the CE leg. -/
theorem squareOffBoth_direction (view : Direction) (strike : Nat)
    (ce pe se so act txt : String) (hce : ce ≠ "") (hpe : pe ≠ "")
    (ht : squareOffTemplates act = some txt) :
    SquareOff.buildMessage .both view strike ce pe se so act =
      some (match view with
        | .BULLISH => "SQUARE OFF\n" ++ txt ++ " Sell " ++ natStr strike ++ " CE @ " ++ ce ++
            " and Buy " ++ natStr strike ++ " PE @ " ++ pe
        | .BEARISH => "SQUARE OFF\n" ++ txt ++ " Sell " ++ natStr strike ++ " PE @ " ++ pe ++
            " and Buy " ++ natStr strike ++ " CE @ " ++ ce) := by
  simp only [SquareOff.buildMessage, ht]
  rw [if_neg (not_or.mpr ⟨hce, hpe⟩)]
  cases view <;> rfl

/-- Witness for C7: the concrete scenario — Bullish view, strike 25900,
CE exit 120, PE exit 125, template book100 — composes exactly the claimed
square-off message. -/
theorem squareOffBoth_direction_check :
    SquareOff.buildMessage ExitMode.both Direction.BULLISH 25900 "120" "125" "" "" "book100" =
      some "SQUARE OFF\nModify stop loss and book 100% profit. Sell 25900 CE @ 120 and Buy 25900 PE @ 125" := by
  have h := squareOffBoth_direction Direction.BULLISH 25900 "120" "125" "" "" "book100"
    "Modify stop loss and book 100% profit." (by decide) (by decide) rfl
  rw [h]
  rfl

/-! ## ExpiryTradesSection -/

/-- The `expiryTemplates` array: (id, text) pairs. -/
def expiryTemplates : List (String × String) :=
  [("book100", "Modify stop loss and book 100% profit."),
   ("book50", "Modify stop loss and book 50% profit and now keep trailing stop loss at cost for remaining 50% qty."),
   ("trailprofit", "Trailing stop loss triggered. Modify stop loss and book profit for remaining 50% quantity."),
   ("trailclose", "Trailing stop loss triggered. Modify your stop loss and square off position."),
   ("stoploss", "Stop loss triggered. Modify your stop loss and square off position.")]

/-- `buildMessage` of `ExpiryTradesSection`: empty exit price or an
unrecognized template id aborts; otherwise the side bought back is derived
from the market view (Bullish → PE, Bearish → CE). -/
def ExpiryTrades.buildMessage (marketView : Direction) (strike : Nat)
    (exitPrice template : String) : Option String :=
  if exitPrice = "" then none
  else
    match expiryTemplates.find? (fun t => t.1 == template) with
    | none => none
    | some t =>
      let optionType := match marketView with
        | .BULLISH => "PE"
        | .BEARISH => "CE"
      some ("SQUARE OFF\n" ++ t.2 ++ " Buy " ++ natStr strike ++ " " ++ optionType ++
        " @ " ++ exitPrice)

/-- Claim C8: ExpirySingle composition fails on an empty exit price or a
template id outside the five recognized ones, and otherwise emits
`SQUARE OFF\n<templateText> Buy <strike> <side> @ <exitPrice>` with the
bought-back side determined solely by the market view (Bullish → PE,
Bearish → CE). -/
theorem expirySingle_composition (view : Direction) (strike : Nat) (exit tid : String) :
    (exit = "" → ExpiryTrades.buildMessage view strike exit tid = none) ∧
    (tid ∉ ["book100", "book50", "trailprofit", "trailclose", "stoploss"] →
      ExpiryTrades.buildMessage view strike exit tid = none) ∧
    (∀ p, exit ≠ "" → expiryTemplates.find? (fun t => t.1 == tid) = some p →
      ExpiryTrades.buildMessage view strike exit tid =
        some ("SQUARE OFF\n" ++ p.2 ++ " Buy " ++ natStr strike ++ " " ++
          (match view with | .BULLISH => "PE" | .BEARISH => "CE") ++ " @ " ++ exit)) := by
  refine ⟨?_, ?_, ?_⟩
  · intro h
    simp [ExpiryTrades.buildMessage, h]
  · intro hmem
    have hf : expiryTemplates.find? (fun t => t.1 == tid) = none := by
      rw [List.find?_eq_none]
      intro x hx
      fin_cases hx <;>
        · simp only [beq_iff_eq]
          intro he
          exact hmem (he ▸ (by decide))
    by_cases h : exit = "" <;> simp [ExpiryTrades.buildMessage, hf, h]
  · intro p hx hf
    simp only [ExpiryTrades.buildMessage, if_neg hx, hf]

/-- Witness for C8: Bullish view, strike 25900, exit price 120, template
book100 buys back the PE side with the book100 phrasing. -/
theorem expirySingle_composition_check :
    ExpiryTrades.buildMessage Direction.BULLISH 25900 "120" "book100" =
      some "SQUARE OFF\nModify stop loss and book 100% profit. Buy 25900 PE @ 120" := by
  have h := (expirySingle_composition Direction.BULLISH 25900 "120" "book100").2.2
    ("book100", "Modify stop loss and book 100% profit.") (by decide) rfl
  rw [h]
  rfl
